import Mathlib

/-!
Verification of the natural-language specification of the YouTube channel
dashboard (`src/app.py`) against a shallow Lean embedding of its core
functions: the ISO-8601 duration decoder `iso_to_seconds`, the channel
resolver `resolve_to_channel_id`, the fetch pipeline
(`list_upload_video_ids`, `chunk`, `fetch_video_details`) and the KPI
aggregator (`in_range`, `compute_kpis`).

Python strings are modelled as Lean `String`/`List Char`; a raised Python
exception is modelled as `Option.none` (for `iso_to_seconds`, which crashes
with an `AttributeError` when the regex does not match) or as
`Except.error` (for the resolver, which raises `ValueError` — the spec's
`ResolutionError`).  Network traffic is modelled by an explicit oracle and
an explicit count of HTTP requests issued.
-/

namespace YtScraper

/-! ### Duration decoder: `iso_to_seconds` (src/app.py lines 18-22)

The Python code is
  `m = re.match(r"PT(?:(\d+)H)?(?:(\d+)M)?(?:(\d+)S)?", iso)`
  `h = int(m.group(1) or 0); m_ = int(m.group(2) or 0); s = int(m.group(3) or 0)`
  `return h*3600 + m_*60 + s`
`re.match` anchors at the start of the string only; every group is
optional, so the match succeeds exactly when the input starts with the
literal `PT`, and `m.group(...)` raises `AttributeError` (m is `None`)
otherwise.  Trailing text after the matched part is ignored. -/

/-- Digit run interpreted as a decimal number, as Python `int` does on the
captured group of consecutive digits. -/
def digitsToNat (ds : List Char) : Nat :=
  ds.foldl (fun n c => n * 10 + (c.toNat - 48)) 0

/-- One optional regex component `(?:(\d+)X)?`: a non-empty maximal digit
run immediately followed by the letter `letter`.  Greedy `\d+` backtracking
cannot help: shortening the maximal run leaves a digit (never the letter)
at the next position, so the component matches exactly when the char after
the maximal digit run is `letter`.  Returns the captured value and the
remaining input, or `none` and the untouched input. -/
def matchComp (letter : Char) (l : List Char) : Option Nat × List Char :=
  let ds := l.takeWhile Char.isDigit
  let rest := l.dropWhile Char.isDigit
  if ds = [] then (none, l)
  else
    match rest with
    | c :: r => if c = letter then (some (digitsToNat ds), r) else (none, l)
    | [] => (none, l)

/-- The anchored literal `PT` at the start of the pattern: `some rest` when
the input starts with `PT` (the regex match succeeds), `none` otherwise
(the regex match is `None` and the Python code crashes). -/
def ptRest (s : String) : Option (List Char) :=
  match s.data with
  | 'P' :: 'T' :: rest => some rest
  | _ => none

/-- Seconds computed from the three optional `H`/`M`/`S` components after
the `PT` anchor; missing components contribute 0, trailing unmatched text
is ignored, exactly as the regex groups behave. -/
def durFrom (rest : List Char) : Nat :=
  let hm := matchComp 'H' rest
  let mm := matchComp 'M' hm.2
  let sm := matchComp 'S' mm.2
  (hm.1.getD 0) * 3600 + (mm.1.getD 0) * 60 + sm.1.getD 0

/-- `iso_to_seconds` of src/app.py: `none` models the `AttributeError`
raised when the regex match fails (input does not start with `PT`). -/
def iso_to_seconds (iso : String) : Option Nat :=
  match ptRest iso with
  | none => none
  | some rest => some (durFrom rest)

/-- Modelled from the spec: a well-formed duration of the shape `PT#H#M#S`
(each component optional, nothing else in the string).  Used only to state
claim C1; the source has no such validity check. -/
def specWellFormedDuration (s : String) : Bool :=
  match ptRest s with
  | none => false
  | some rest =>
    let hm := matchComp 'H' rest
    let mm := matchComp 'M' hm.2
    let sm := matchComp 'S' mm.2
    sm.2.isEmpty

/-! ### Data model and aggregator (src/app.py lines 159-197)

`VideoRecord` is the dictionary built in `fetch_video_details`; timestamps
are modelled as integers (instants on a linear time line), a missing
`publishedAt` as `none`.  `likes`/`comments` are the already-coerced
non-negative integers. -/

structure VideoRecord where
  id : String
  title : String
  url : String
  publishedAt : Option Int
  duration_seconds : Nat
  likes : Nat
  comments : Nat
  thumbnail : Option String
deriving Repr, DecidableEq

/-- `in_range` of src/app.py lines 177-180: `False` for a missing
timestamp, else `start <= ts < end` (half-open). -/
def in_range (ts : Option Int) (start stop : Int) : Bool :=
  match ts with
  | none => false
  | some t => decide (start ≤ t) && decide (t < stop)

/-- The fold inside Python's `max(pool, key=...)`: the running best is
replaced only when a strictly greater key appears, so the first maximal
element of the list wins ties. -/
def topFold (key : VideoRecord → Nat) (v : VideoRecord) (vs : List VideoRecord) : VideoRecord :=
  vs.foldl (fun best x => if key best < key x then x else best) v

/-- `top_by` of src/app.py lines 187-188:
`max(pool, key=lambda x: x.get(key, 0)) if pool else None`.  The key is a
total function here because the embedded records always carry their
statistics. -/
def top_by (key : VideoRecord → Nat) (pool : List VideoRecord) : Option VideoRecord :=
  match pool with
  | [] => none
  | v :: vs => some (topFold key v vs)

/-- Result dictionary of `compute_kpis`. -/
structure KpiResult where
  items : List VideoRecord
  count_total : Nat
  count_videos : Nat
  count_shorts : Nat
  most_liked : Option VideoRecord
  most_commented : Option VideoRecord

/-- `compute_kpis` of src/app.py lines 182-197 (`short_threshold_sec`
defaults to 60 at the call sites). -/
def compute_kpis (videos : List VideoRecord) (start stop : Int)
    (short_threshold_sec : Nat) : KpiResult :=
  let items := videos.filter (fun v => in_range v.publishedAt start stop)
  let videos_only := items.filter (fun v => decide (short_threshold_sec < v.duration_seconds))
  let shorts_only := items.filter (fun v => decide (v.duration_seconds ≤ short_threshold_sec))
  { items := items
    count_total := items.length
    count_videos := videos_only.length
    count_shorts := shorts_only.length
    most_liked := top_by (fun v => v.likes) items
    most_commented := top_by (fun v => v.comments) items }

/-- Concrete record builder for witnesses. -/
def mkVid (name : String) (t : Option Int) (dur lk cm : Nat) : VideoRecord :=
  { id := name, title := name, url := "https://www.youtube.com/watch?v=" ++ name,
    publishedAt := t, duration_seconds := dur, likes := lk, comments := cm,
    thumbnail := none }

/-- Concrete witness data: likes are `[5, 10, 10, 3]` as in the spec's
tie-breaking example; durations straddle the 60-second threshold. -/
def demoVids : List VideoRecord :=
  [ mkVid "a" (some 1) 45 5 9,
    mkVid "b" (some 2) 61 10 2,
    mkVid "c" (some 3) 60 10 7,
    mkVid "d" (some 4) 120 3 7 ]

/-! ### Channel resolver: `resolve_to_channel_id` (src/app.py lines 32-106)

Network lookups (`channels?forHandle`, `channels?forUsername`,
`search?type=channel`) are modelled by an `Oracle` of partial functions
(`none` models an empty `items` list in the JSON response); every result
carries the number of HTTP requests performed.  The `ValueError`s raised by
the Python code are the spec's `ResolutionError`. -/

/-- Whitespace stripped by Python's `str.strip()` (ASCII part). -/
def isSpace (c : Char) : Bool :=
  c == ' ' || c == '\t' || c == '\n' || c == '\r' || c == '\x0b' || c == '\x0c'

/-- `str.strip()`: drop whitespace from both ends. -/
def pyStrip (l : List Char) : List Char :=
  ((l.dropWhile isSpace).reverse.dropWhile isSpace).reverse

def strip (s : String) : String := ⟨pyStrip s.data⟩

/-- Character class `[0-9A-Za-z_-]` of the canonical channel-ID regex. -/
def isIdChar (c : Char) : Bool := c.isAlphanum || c == '_' || c == '-'

/-- `re.fullmatch(r"UC[0-9A-Za-z_-]{22}", s)`: literal `UC` followed by
exactly 22 characters of the class, nothing else. -/
def isCanonicalId (s : String) : Bool :=
  (s.data.take 2 == ['U', 'C']) && ((s.data.drop 2).length == 22)
    && (s.data.drop 2).all isIdChar

/-- Consume a literal: `some rest` when `l` starts with the pattern `pat`. -/
def dropLit : List Char → List Char → Option (List Char)
  | [], l => some l
  | _ :: _, [] => none
  | p :: ps, c :: cs => if c = p then dropLit ps cs else none

/-- Python `str.startswith` on the model. -/
def startsWithLit (pat : String) (s : String) : Bool :=
  (dropLit pat.data s.data).isSome

/-- `re.search`: try the anchored matcher at each position, left to right
(including the empty suffix, where all matchers used here fail). -/
def scanFor (f : List Char → Option String) : List Char → Option String
  | [] => f []
  | c :: cs =>
    match f (c :: cs) with
    | some r => some r
    | none => scanFor f cs

/-- Character class `[A-Za-z0-9_.-]` of the handle / custom-URL regexes. -/
def isHandleChar (c : Char) : Bool :=
  c.isAlphanum || c == '_' || c == '.' || c == '-'

/-- Anchored `/channel/(UC[0-9A-Za-z_-]{22})`: a greedy `{22}` needs the 22
characters right after `UC` to be in the class; later text is ignored. -/
def matchChannelAt (l : List Char) : Option String :=
  match dropLit "/channel/".data l with
  | none => none
  | some r =>
    match dropLit ['U', 'C'] r with
    | none => none
    | some r2 =>
      if 22 ≤ (r2.takeWhile isIdChar).length then some ⟨'U' :: 'C' :: r2.take 22⟩
      else none

/-- Anchored `/@([A-Za-z0-9_.-]+)`: maximal non-empty run after `/@`. -/
def matchHandleAt (l : List Char) : Option String :=
  match dropLit "/@".data l with
  | none => none
  | some r =>
    if (r.takeWhile isHandleChar).isEmpty then none else some ⟨r.takeWhile isHandleChar⟩

/-- Anchored `/user/([A-Za-z0-9]+)`. -/
def matchUserAt (l : List Char) : Option String :=
  match dropLit "/user/".data l with
  | none => none
  | some r =>
    if (r.takeWhile Char.isAlphanum).isEmpty then none
    else some ⟨r.takeWhile Char.isAlphanum⟩

/-- Anchored `/c/([A-Za-z0-9_.-]+)`. -/
def matchCustomAt (l : List Char) : Option String :=
  match dropLit "/c/".data l with
  | none => none
  | some r =>
    if (r.takeWhile isHandleChar).isEmpty then none else some ⟨r.takeWhile isHandleChar⟩

/-- `s.rstrip("/").split("/")[-1]`: the text after the last `/` once
trailing slashes are removed. -/
def lastPathPiece (s : String) : String :=
  let t := (s.data.reverse.dropWhile (fun c => c == '/')).reverse
  ⟨(t.reverse.takeWhile (fun c => c != '/')).reverse⟩

/-- The three upstream endpoints used by the resolver; `none` models an
empty `items` array in the JSON response. -/
structure Oracle where
  forHandle : String → Option String
  forUsername : String → Option String
  search : String → Option String

/-- The `ValueError`s raised by the resolver (spec: `ResolutionError`). -/
inductive ResolveError where
  | resolutionError (msg : String)
deriving Repr, DecidableEq

/-- `channel_id_from_handle` (lines 77-83): one request; raises when the
response has no items. -/
def channel_id_from_handle (o : Oracle) (handle : String) :
    Except ResolveError String × Nat :=
  match o.forHandle handle with
  | some cid => (Except.ok cid, 1)
  | none => (Except.error (ResolveError.resolutionError ("Handle not found: " ++ handle)), 1)

/-- `channel_id_from_search` (lines 94-106): one request; raises when the
search returns nothing. -/
def channel_id_from_search (o : Oracle) (query : String) :
    Except ResolveError String × Nat :=
  match o.search query with
  | some cid => (Except.ok cid, 1)
  | none =>
    (Except.error (ResolveError.resolutionError ("No channel found for query: " ++ query)), 1)

/-- `channel_id_from_username` (lines 85-92): one request, falling back to
search (a second request) when the legacy username yields no items. -/
def channel_id_from_username (o : Oracle) (username : String) :
    Except ResolveError String × Nat :=
  match o.forUsername username with
  | some cid => (Except.ok cid, 1)
  | none =>
    let r := channel_id_from_search o username
    (r.1, r.2 + 1)

/-- URL branch of `resolve_to_channel_id` (lines 44-68): the four
`re.search` patterns in order, then the last-path-piece fallback. -/
def resolveUrl (o : Oracle) (s : String) : Except ResolveError String × Nat :=
  match scanFor matchChannelAt s.data with
  | some cid => (Except.ok cid, 0)
  | none =>
    match scanFor matchHandleAt s.data with
    | some h => channel_id_from_handle o ("@" ++ h)
    | none =>
      match scanFor matchUserAt s.data with
      | some u => channel_id_from_username o u
      | none =>
        match scanFor matchCustomAt s.data with
        | some c => channel_id_from_search o c
        | none => channel_id_from_search o (lastPathPiece s)

/-- Branch chain of `resolve_to_channel_id` (lines 35-75) applied to the
already-stripped input `s`. -/
def resolveStripped (o : Oracle) (s : String) : Except ResolveError String × Nat :=
  if s.data = [] then
    (Except.error (ResolveError.resolutionError "Empty channel input."), 0)
  else if isCanonicalId s then (Except.ok s, 0)
  else if startsWithLit "http://" s || startsWithLit "https://" s then resolveUrl o s
  else if startsWithLit "@" s then channel_id_from_handle o s
  else channel_id_from_username o s

/-- `resolve_to_channel_id` (lines 32-75): strip, then the branch chain;
the second component counts HTTP requests issued. -/
def resolve_to_channel_id (o : Oracle) (input_str : String) :
    Except ResolveError String × Nat :=
  resolveStripped o (strip input_str)

/-- Oracle on which every lookup comes back empty, for witnesses. -/
def noOracle : Oracle :=
  { forHandle := fun _ => none, forUsername := fun _ => none, search := fun _ => none }

/-! ### Fetch pipeline (src/app.py lines 125-156)

The uploads container is modelled as the full list of video IDs behind the
playlist.  Each `playlistItems` request serves up to 50 items from the
current offset and returns a continuation token exactly when items remain
after the page — which is how `nextPageToken` behaves.  The second
component of each result counts HTTP requests issued. -/

/-- `while True` loop of `list_upload_video_ids` (lines 129-142): request a
page, extend `ids`, stop when the token is exhausted or at least
`maxItems` ids are collected.  `fuel` bounds the recursion;
`container.length + 1` always suffices because every continued iteration
advances the offset by a non-empty page. -/
def listUploadLoop (container : List String) (maxItems : Nat) :
    Nat → List String → Nat → Nat → List String × Nat
  | 0, ids, _, calls => (ids, calls)
  | fuel + 1, ids, off, calls =>
    let page := (container.drop off).take 50
    if off + page.length < container.length then
      if maxItems ≤ (ids ++ page).length then (ids ++ page, calls + 1)
      else
        listUploadLoop container maxItems fuel (ids ++ page) (off + page.length) (calls + 1)
    else (ids ++ page, calls + 1)

/-- `list_upload_video_ids` (lines 125-143): run the pagination loop from
offset 0, then truncate to `max_items` (`ids[:max_items]`). -/
def list_upload_video_ids (container : List String) (maxItems : Nat) :
    List String × Nat :=
  let r := listUploadLoop container maxItems (container.length + 1) [] 0 0
  (r.1.take maxItems, r.2)

/-- `chunk` (lines 24-26) for a positive chunk size; the code only ever
calls it with 50 (Python would raise on step 0, modelled as no chunks). -/
def chunk {α : Type} (l : List α) (n : Nat) : List (List α) :=
  match l, n with
  | [], _ => []
  | _ :: _, 0 => []
  | a :: l', m + 1 =>
    ((a :: l').take (m + 1)) :: chunk ((a :: l').drop (m + 1)) (m + 1)
termination_by l.length
decreasing_by
  simp only [List.length_drop, List.length_cons]
  omega

/-- `fetch_video_details` (lines 145-156): early return on an empty id
list, else one request per chunk of at most 50 ids, records appended in
request order.  A response is modelled as one record per requested id,
built by `detailOf`. -/
def fetch_video_details (detailOf : String → VideoRecord) (video_ids : List String) :
    List VideoRecord × Nat :=
  if video_ids = [] then ([], 0)
  else
    ((chunk video_ids 50).foldl (fun out group => out ++ group.map detailOf) [],
     (chunk video_ids 50).length)

/-- Concrete uploads container of 137 ids for the C2 witness. -/
def demoContainer : List String := List.replicate 137 "vid"

lemma ptRest_eq_none_iff (s : String) :
    ptRest s = none ↔ ∀ rest, s.data ≠ 'P' :: 'T' :: rest := by
  unfold ptRest
  split
  · rename_i rest h
    simp [h]
  · rename_i h
    simp
    intro rest hr
    exact h rest hr

lemma ptRest_eq_some_iff (s : String) (rest : List Char) :
    ptRest s = some rest ↔ s.data = 'P' :: 'T' :: rest := by
  unfold ptRest
  split
  · rename_i r h
    rw [h]
    simp
  · rename_i h
    constructor
    · intro hc
      exact Option.noConfusion hc
    · intro hr
      exact absurd hr (h rest)

lemma iso_to_seconds_eq_map (s : String) :
    iso_to_seconds s = (ptRest s).map durFrom := by
  unfold iso_to_seconds
  rcases h : ptRest s with _ | rest <;> rfl

/-- Claim C7: the duration decoder maps "PT1H2M3S" to 3723, "PT45S" to 45,
"PT2H" to 7200 and "PT" to 0, missing components counting as 0. -/
theorem iso_to_seconds_examples :
    iso_to_seconds "PT1H2M3S" = some 3723 ∧
    iso_to_seconds "PT45S" = some 45 ∧
    iso_to_seconds "PT2H" = some 7200 ∧
    iso_to_seconds "PT" = some 0 := by
  refine ⟨?_, ?_, ?_, ?_⟩ <;> decide

/-- Claim C9: the decoder is not total — it returns a value exactly when
the input begins with the literal prefix "PT", and crashes (regex match is
`None`) otherwise; in particular "P1DT2H" (a day component) crashes. -/
theorem iso_to_seconds_partial (s : String) :
    ((∃ n, iso_to_seconds s = some n) ↔ (∃ rest, s.data = 'P' :: 'T' :: rest)) ∧
    iso_to_seconds "P1DT2H" = none := by
  constructor
  · rw [iso_to_seconds_eq_map]
    constructor
    · rintro ⟨n, hn⟩
      rcases h : ptRest s with _ | rest
      · rw [h] at hn
        simp at hn
      · exact ⟨rest, (ptRest_eq_some_iff s rest).mp h⟩
    · rintro ⟨rest, hr⟩
      exact ⟨durFrom rest, by rw [(ptRest_eq_some_iff s rest).mpr hr]; rfl⟩
  · decide

/-- Claim C1, counterexample: "PT5" is not a well-formed `PT#H#M#S`
duration (the trailing "5" belongs to no component), yet the decoder does
not fail — it silently returns 0. -/
theorem iso_silent_zero_cex :
    specWellFormedDuration "PT5" = false ∧ iso_to_seconds "PT5" = some 0 := by
  decide

/-- Claim C1, amended: the decoder fails hard exactly on inputs that do not
begin with the literal "PT"; an input beginning with "PT" never fails, even
when its remainder is malformed — unmatched content is silently ignored and
missing components default to 0, so malformed strings such as "PT5" decode
to 0 rather than raising. -/
theorem iso_failure_only_without_pt (s : String) :
    (iso_to_seconds s = none ↔ ∀ rest, s.data ≠ 'P' :: 'T' :: rest) ∧
    (specWellFormedDuration s = false →
      ∀ rest, s.data = 'P' :: 'T' :: rest → ∃ n, iso_to_seconds s = some n) := by
  constructor
  · rw [iso_to_seconds_eq_map, ← ptRest_eq_none_iff]
    rcases ptRest s with _ | rest <;> simp
  · intro _ rest hr
    exact ⟨durFrom rest, by rw [iso_to_seconds_eq_map, (ptRest_eq_some_iff s rest).mpr hr]; rfl⟩

/-- Witness for the amended claim C1 at concrete inputs: "P1DT2H" (no "PT"
prefix) crashes, while the malformed "PT5" is decoded without failure. -/
theorem iso_failure_only_without_pt_witness :
    iso_to_seconds "P1DT2H" = none ∧ ∃ n, iso_to_seconds "PT5" = some n := by
  constructor
  · exact (iso_failure_only_without_pt "P1DT2H").1.mpr
      ((ptRest_eq_none_iff "P1DT2H").mp (by decide))
  · exact (iso_failure_only_without_pt "PT5").2 (by decide) ['5'] (by decide)

lemma in_range_eq_true_iff (ts : Option Int) (start stop : Int) :
    in_range ts start stop = true ↔ ∃ t, ts = some t ∧ start ≤ t ∧ t < stop := by
  cases ts <;> simp [in_range]

/-- Claim C3: membership in the filtered `items` of `compute_kpis` is
exactly: the record comes from the input, its `publishedAt` is defined, and
it lies in the half-open window `[start, stop)`; a record published exactly
at `stop` or with no timestamp is excluded. -/
theorem compute_kpis_items_mem (videos : List VideoRecord) (start stop : Int)
    (th : Nat) (v : VideoRecord) :
    v ∈ (compute_kpis videos start stop th).items ↔
      v ∈ videos ∧ ∃ t, v.publishedAt = some t ∧ start ≤ t ∧ t < stop := by
  simp [compute_kpis, List.mem_filter, in_range_eq_true_iff]

lemma topFold_cons (key : VideoRecord → Nat) (v x : VideoRecord) (vs : List VideoRecord) :
    topFold key v (x :: vs) = topFold key (if key v < key x then x else v) vs := rfl

lemma foldl_top_decomp (key : VideoRecord → Nat) (vs : List VideoRecord) :
    ∀ v : VideoRecord,
      ∃ l₁ l₂,
        v :: vs = l₁ ++ topFold key v vs :: l₂ ∧
        (∀ w ∈ l₁, key w < key (topFold key v vs)) ∧
        (∀ w ∈ l₂, key w ≤ key (topFold key v vs)) := by
  induction vs with
  | nil =>
    intro v
    exact ⟨[], [], rfl, by simp, by simp⟩
  | cons x vs ih =>
    intro v
    rw [topFold_cons]
    by_cases hvx : key v < key x
    · rw [if_pos hvx]
      obtain ⟨l₁, l₂, heq, h₁, h₂⟩ := ih x
      refine ⟨v :: l₁, l₂, ?_, ?_, h₂⟩
      · rw [List.cons_append, ← heq]
      · intro w hw
        rcases List.mem_cons.mp hw with hw | hw
        · subst hw
          have hx_mem : x ∈ l₁ ++ topFold key x vs :: l₂ := by
            rw [← heq]
            exact List.mem_cons_self x vs
          have hx_le : key x ≤ key (topFold key x vs) := by
            rcases List.mem_append.mp hx_mem with h | h
            · exact le_of_lt (h₁ x h)
            · rcases List.mem_cons.mp h with h | h
              · exact le_of_eq (congrArg key h)
              · exact h₂ x h
          exact lt_of_lt_of_le hvx hx_le
        · exact h₁ w hw
    · rw [if_neg hvx]
      obtain ⟨l₁, l₂, heq, h₁, h₂⟩ := ih v
      cases l₁ with
      | nil =>
        have hv : v = topFold key v vs := by
          have := congrArg (fun l => l.head?) heq
          simpa using this
        have hvs : vs = l₂ := by
          have := congrArg (fun l => l.tail) heq
          simpa using this
        refine ⟨[], x :: vs, by rw [← hv]; rfl, by simp, ?_⟩
        intro w hw
        rcases List.mem_cons.mp hw with hw | hw
        · subst hw
          rw [← hv]
          exact Nat.le_of_not_lt hvx
        · exact h₂ w (hvs ▸ hw)
      | cons y l₁' =>
        rw [List.cons_append] at heq
        injection heq with hy hvs
        refine ⟨v :: x :: l₁', l₂, ?_, ?_, h₂⟩
        · rw [List.cons_append, List.cons_append, ← hvs]
        · intro w hw
          have hv_lt : key v < key (topFold key v vs) := by
            refine h₁ v ?_
            rw [hy]
            exact List.mem_cons_self y l₁'
          rcases List.mem_cons.mp hw with hw | hw
          · subst hw
            exact hv_lt
          · rcases List.mem_cons.mp hw with hw | hw
            · subst hw
              exact lt_of_le_of_lt (Nat.le_of_not_lt hvx) hv_lt
            · exact h₁ w (List.mem_cons_of_mem y hw)

lemma top_by_eq_none_iff (key : VideoRecord → Nat) (pool : List VideoRecord) :
    top_by key pool = none ↔ pool = [] := by
  cases pool <;> simp [top_by]

lemma top_by_some_decomp (key : VideoRecord → Nat) (pool : List VideoRecord)
    (v : VideoRecord) (h : top_by key pool = some v) :
    ∃ l₁ l₂, pool = l₁ ++ v :: l₂ ∧ (∀ w ∈ l₁, key w < key v) ∧ ∀ w ∈ l₂, key w ≤ key v := by
  cases pool with
  | nil => exact Option.noConfusion h
  | cons a vs =>
    have hv : topFold key a vs = v := by simpa [top_by] using h
    obtain ⟨l₁, l₂, heq, h₁, h₂⟩ := foldl_top_decomp key vs a
    rw [hv] at heq h₁ h₂
    exact ⟨l₁, l₂, heq, h₁, h₂⟩

/-- Claim C6: `most_liked` (resp. `most_commented`) is `none` exactly when
the filtered set is empty, and otherwise is a first-in-input-order arg-max:
everything before it in the filtered list has strictly fewer likes (resp.
comments) and everything after it has no more. -/
theorem compute_kpis_argmax_first (videos : List VideoRecord) (start stop : Int) (th : Nat) :
    ((compute_kpis videos start stop th).most_liked = none ↔
        (compute_kpis videos start stop th).items = []) ∧
    ((compute_kpis videos start stop th).most_commented = none ↔
        (compute_kpis videos start stop th).items = []) ∧
    (∀ v, (compute_kpis videos start stop th).most_liked = some v →
      ∃ l₁ l₂, (compute_kpis videos start stop th).items = l₁ ++ v :: l₂ ∧
        (∀ w ∈ l₁, w.likes < v.likes) ∧ ∀ w ∈ l₂, w.likes ≤ v.likes) ∧
    (∀ v, (compute_kpis videos start stop th).most_commented = some v →
      ∃ l₁ l₂, (compute_kpis videos start stop th).items = l₁ ++ v :: l₂ ∧
        (∀ w ∈ l₁, w.comments < v.comments) ∧ ∀ w ∈ l₂, w.comments ≤ v.comments) := by
  have hml : (compute_kpis videos start stop th).most_liked
      = top_by (fun v => v.likes) (compute_kpis videos start stop th).items := rfl
  have hmc : (compute_kpis videos start stop th).most_commented
      = top_by (fun v => v.comments) (compute_kpis videos start stop th).items := rfl
  refine ⟨?_, ?_, ?_, ?_⟩
  · rw [hml, top_by_eq_none_iff]
  · rw [hmc, top_by_eq_none_iff]
  · intro v hv
    exact top_by_some_decomp _ _ v (hml ▸ hv)
  · intro v hv
    exact top_by_some_decomp _ _ v (hmc ▸ hv)

/-- Witness for claim C6 on the spec's example: with likes `[5, 10, 10, 3]`
the selected `most_liked` is the first of the two records tied at 10. -/
theorem compute_kpis_argmax_first_witness :
    ∃ l₁ l₂, (compute_kpis demoVids 0 10 60).items = l₁ ++ mkVid "b" (some 2) 61 10 2 :: l₂ ∧
      (∀ w ∈ l₁, w.likes < (mkVid "b" (some 2) 61 10 2).likes) ∧
      ∀ w ∈ l₂, w.likes ≤ (mkVid "b" (some 2) 61 10 2).likes :=
  (compute_kpis_argmax_first demoVids 0 10 60).2.2.1 (mkVid "b" (some 2) 61 10 2) (by decide)

/-- Claim C10: whenever they exist, `most_liked` and `most_commented` are
members of the filtered in-range list, hence of the input list; they exist
whenever the filtered list is non-empty. -/
theorem compute_kpis_extremal_members (videos : List VideoRecord) (start stop : Int) (th : Nat) :
    (∀ v, (compute_kpis videos start stop th).most_liked = some v →
        v ∈ (compute_kpis videos start stop th).items ∧ v ∈ videos) ∧
    (∀ v, (compute_kpis videos start stop th).most_commented = some v →
        v ∈ (compute_kpis videos start stop th).items ∧ v ∈ videos) ∧
    ((compute_kpis videos start stop th).items ≠ [] →
        (compute_kpis videos start stop th).most_liked ≠ none ∧
        (compute_kpis videos start stop th).most_commented ≠ none) := by
  have hml : (compute_kpis videos start stop th).most_liked
      = top_by (fun v => v.likes) (compute_kpis videos start stop th).items := rfl
  have hmc : (compute_kpis videos start stop th).most_commented
      = top_by (fun v => v.comments) (compute_kpis videos start stop th).items := rfl
  have hitems : (compute_kpis videos start stop th).items
      = videos.filter (fun v => in_range v.publishedAt start stop) := rfl
  have hmem : ∀ v, v ∈ (compute_kpis videos start stop th).items → v ∈ videos := by
    intro v hv
    rw [hitems] at hv
    exact List.mem_of_mem_filter hv
  refine ⟨?_, ?_, ?_⟩
  · intro v hv
    obtain ⟨l₁, l₂, heq, -, -⟩ := top_by_some_decomp _ _ v (hml ▸ hv)
    have : v ∈ (compute_kpis videos start stop th).items := by
      rw [heq]
      exact List.mem_append_right l₁ (List.mem_cons_self v l₂)
    exact ⟨this, hmem v this⟩
  · intro v hv
    obtain ⟨l₁, l₂, heq, -, -⟩ := top_by_some_decomp _ _ v (hmc ▸ hv)
    have : v ∈ (compute_kpis videos start stop th).items := by
      rw [heq]
      exact List.mem_append_right l₁ (List.mem_cons_self v l₂)
    exact ⟨this, hmem v this⟩
  · intro hne
    constructor
    · rw [hml]
      intro hc
      exact hne ((top_by_eq_none_iff _ _).mp hc)
    · rw [hmc]
      intro hc
      exact hne ((top_by_eq_none_iff _ _).mp hc)

/-- Witness for claim C10: on the demo data the selected `most_liked`
record is in the filtered list and in the input list. -/
theorem compute_kpis_extremal_members_witness :
    mkVid "b" (some 2) 61 10 2 ∈ (compute_kpis demoVids 0 10 60).items ∧
    mkVid "b" (some 2) 61 10 2 ∈ demoVids :=
  (compute_kpis_extremal_members demoVids 0 10 60).1 (mkVid "b" (some 2) 61 10 2) (by decide)

lemma length_filter_lt_add_le (th : Nat) (l : List VideoRecord) :
    (l.filter (fun v => decide (th < v.duration_seconds))).length +
      (l.filter (fun v => decide (v.duration_seconds ≤ th))).length = l.length := by
  induction l with
  | nil => rfl
  | cons a t ih =>
    by_cases h : a.duration_seconds ≤ th
    · simp [List.filter_cons, h, Nat.not_lt.mpr h]
      omega
    · simp [List.filter_cons, h, Nat.not_le.mp h]
      omega

/-- Claim C5: the long/short split is a strict bisection of the in-range
set — `count_videos + count_shorts = count_total`, the shorts count is the
count of in-range records with `duration_seconds ≤ threshold` and the
videos count that of records with `duration_seconds > threshold`; at
threshold 60 a 60-second record is short-form and a 61-second one
long-form. -/
theorem compute_kpis_bisection (videos : List VideoRecord) (start stop : Int) (th : Nat) :
    ((compute_kpis videos start stop th).count_videos +
        (compute_kpis videos start stop th).count_shorts
      = (compute_kpis videos start stop th).count_total) ∧
    ((compute_kpis videos start stop th).count_shorts
      = ((compute_kpis videos start stop th).items.filter
          (fun v => decide (v.duration_seconds ≤ th))).length) ∧
    ((compute_kpis videos start stop th).count_videos
      = ((compute_kpis videos start stop th).items.filter
          (fun v => decide (th < v.duration_seconds))).length) ∧
    (compute_kpis [mkVid "s" (some 1) 60 0 0, mkVid "v" (some 1) 61 0 0] 0 10 60).count_shorts
      = 1 ∧
    (compute_kpis [mkVid "s" (some 1) 60 0 0, mkVid "v" (some 1) 61 0 0] 0 10 60).count_videos
      = 1 := by
  refine ⟨?_, rfl, rfl, by decide, by decide⟩
  exact length_filter_lt_add_le th _

lemma dropWhile_eq_self_of_not (p : Char → Bool) (l : List Char)
    (h : ∀ c ∈ l, p c = false) : l.dropWhile p = l := by
  cases l with
  | nil => rfl
  | cons a t =>
    rw [List.dropWhile_cons]
    simp [h a (List.mem_cons_self a t)]

lemma pyStrip_eq_self (l : List Char) (h : ∀ c ∈ l, isSpace c = false) :
    pyStrip l = l := by
  unfold pyStrip
  rw [dropWhile_eq_self_of_not _ _ h]
  rw [dropWhile_eq_self_of_not _ _ (fun c hc => h c (List.mem_reverse.mp hc))]
  exact List.reverse_reverse l

lemma pyStrip_eq_nil (l : List Char) (h : ∀ c ∈ l, isSpace c = true) :
    pyStrip l = [] := by
  unfold pyStrip
  have h1 : l.dropWhile isSpace = [] := by
    rw [List.dropWhile_eq_nil_iff]
    exact h
  rw [h1]
  rfl

lemma isSpace_false_of_isIdChar (c : Char) (h : isIdChar c = true) :
    isSpace c = false := by
  by_contra hc
  have hs : isSpace c = true := by
    cases hval : isSpace c
    · exact absurd hval hc
    · rfl
  have hcases : ((((c = ' ' ∨ c = '\t') ∨ c = '\n') ∨ c = '\r') ∨ c = '\x0b') ∨ c = '\x0c' := by
    simpa [isSpace] using hs
  rcases hcases with ⟨⟨⟨⟨h' | h'⟩ | h'⟩ | h'⟩ | h'⟩ | h' <;> subst h' <;>
    exact absurd h (by decide)

lemma isCanonicalId_spec (s : String) (h : isCanonicalId s = true) :
    s.data.take 2 = ['U', 'C'] ∧ (s.data.drop 2).length = 22 ∧
      ∀ c ∈ s.data.drop 2, isIdChar c = true := by
  have h' := h
  unfold isCanonicalId at h'
  simp only [Bool.and_eq_true, beq_iff_eq, List.all_eq_true, decide_eq_true_eq] at h'
  exact ⟨h'.1.1, h'.1.2, h'.2⟩

lemma canonical_no_space (s : String) (h : isCanonicalId s = true) :
    ∀ c ∈ s.data, isSpace c = false := by
  obtain ⟨h1, h2, h3⟩ := isCanonicalId_spec s h
  intro c hc
  rw [← List.take_append_drop 2 s.data] at hc
  rcases List.mem_append.mp hc with hcc | hcc
  · rw [h1] at hcc
    have : c = 'U' ∨ c = 'C' := by simpa using hcc
    rcases this with h' | h' <;> subst h' <;> decide
  · exact isSpace_false_of_isIdChar c (h3 c hcc)

lemma canonical_ne_nil (s : String) (h : isCanonicalId s = true) : s.data ≠ [] := by
  obtain ⟨h1, -, -⟩ := isCanonicalId_spec s h
  intro hnil
  rw [hnil] at h1
  simp at h1

lemma strip_canonical (s : String) (h : isCanonicalId s = true) : strip s = s := by
  unfold strip
  rw [pyStrip_eq_self s.data (canonical_no_space s h)]

/-- Claim C4: an input that already matches the canonical channel-ID shape
`UC` + 22 characters of `[0-9A-Za-z_-]` is returned unchanged with zero
network requests, whatever the oracle would answer. -/
theorem resolve_canonical_identity (o : Oracle) (s : String)
    (h : isCanonicalId s = true) :
    resolve_to_channel_id o s = (Except.ok s, 0) := by
  unfold resolve_to_channel_id
  rw [strip_canonical s h]
  unfold resolveStripped
  rw [if_neg (canonical_ne_nil s h)]
  rw [if_pos h]

/-- Witness for claim C4 at a concrete canonical-shaped ID on an oracle
that would fail every lookup. -/
theorem resolve_canonical_identity_witness :
    resolve_to_channel_id noOracle "UC0123456789abcdefghijAB" =
      (Except.ok "UC0123456789abcdefghijAB", 0) :=
  resolve_canonical_identity noOracle "UC0123456789abcdefghijAB" (by decide)

/-- Claim C8: an empty or whitespace-only input makes the resolver fail
with the empty-input `ResolutionError` and zero network requests. -/
theorem resolve_blank_input (o : Oracle) (s : String)
    (h : ∀ c ∈ s.data, isSpace c = true) :
    resolve_to_channel_id o s =
      (Except.error (ResolveError.resolutionError "Empty channel input."), 0) := by
  unfold resolve_to_channel_id
  have hs : strip s = ⟨[]⟩ := by
    unfold strip
    rw [pyStrip_eq_nil s.data h]
  rw [hs]
  rfl

/-- Witness for claim C8 on a whitespace-only input. -/
theorem resolve_blank_input_witness :
    resolve_to_channel_id noOracle " " =
      (Except.error (ResolveError.resolutionError "Empty channel input."), 0) :=
  resolve_blank_input noOracle " " (by decide)

lemma listUploadLoop_succ (container : List String) (maxItems fuel : Nat)
    (ids : List String) (off calls : Nat) :
    listUploadLoop container maxItems (fuel + 1) ids off calls =
      if off + ((container.drop off).take 50).length < container.length then
        if maxItems ≤ (ids ++ (container.drop off).take 50).length then
          (ids ++ (container.drop off).take 50, calls + 1)
        else
          listUploadLoop container maxItems fuel (ids ++ (container.drop off).take 50)
            (off + ((container.drop off).take 50).length) (calls + 1)
      else (ids ++ (container.drop off).take 50, calls + 1) := rfl

lemma chunk_cons {α : Type} (l : List α) (n : Nat) (hl : l ≠ []) (hn : n ≠ 0) :
    chunk l n = l.take n :: chunk (l.drop n) n := by
  cases l with
  | nil => exact absurd rfl hl
  | cons a l' =>
    cases n with
    | zero => exact absurd rfl hn
    | succ m => rw [chunk]

lemma chunk_nil {α : Type} (n : Nat) : chunk ([] : List α) n = [] := by
  rw [chunk]

lemma foldl_append_map_length (detailOf : String → VideoRecord)
    (groups : List (List String)) :
    ∀ acc : List VideoRecord,
      (groups.foldl (fun out group => out ++ group.map detailOf) acc).length
        = acc.length + (groups.map List.length).sum := by
  induction groups with
  | nil =>
    intro acc
    simp
  | cons g gs ih =>
    intro acc
    simp only [List.foldl_cons, ih, List.length_append, List.length_map,
      List.map_cons, List.sum_cons]
    omega

lemma listUploadLoop_120 (container : List String) (h : 120 ≤ container.length) :
    listUploadLoop container 120 (container.length + 1) [] 0 0
      = (container.take 150, 3) := by
  obtain ⟨k, hk⟩ : ∃ k, container.length = 120 + k := ⟨container.length - 120, by omega⟩
  have hl1 : (container.take 50).length = 50 := by
    simp [List.length_take]
    omega
  have hl2 : ((container.drop 50).take 50).length = 50 := by
    simp [List.length_take, List.length_drop]
    omega
  have hl3 : ((container.drop (50 + 50)).take 50).length
      = min 50 (container.length - (50 + 50)) := by
    simp [List.length_take, List.length_drop]
  rw [show container.length + 1 = ((118 + k) + 1 + 1) + 1 from by omega]
  rw [listUploadLoop_succ]
  simp only [List.drop_zero, List.nil_append, Nat.zero_add, hl1]
  rw [if_pos (show 50 < container.length from by omega)]
  rw [if_neg (show ¬(120 ≤ 50) from by omega)]
  rw [listUploadLoop_succ]
  simp only [List.length_append, hl1, hl2]
  rw [if_pos (show 50 + 50 < container.length from by omega)]
  rw [if_neg (show ¬(120 ≤ 50 + 50) from by omega)]
  rw [listUploadLoop_succ]
  simp only [List.length_append, hl1, hl2, hl3]
  have hids : (container.take 50 ++ (container.drop 50).take 50)
      ++ (container.drop (50 + 50)).take 50 = container.take 150 := by
    have e1 : container.take 100 = container.take 50 ++ (container.drop 50).take 50 := by
      have := List.take_add container 50 50
      simpa using this
    have e2 : container.take 150 = container.take 100 ++ (container.drop 100).take 50 := by
      have := List.take_add container 100 50
      simpa using this
    rw [e2, ← e1]
  by_cases hc : 50 + 50 + min 50 (container.length - (50 + 50)) < container.length
  · rw [if_pos hc]
    rw [if_pos (show 120 ≤ 50 + 50 + min 50 (container.length - (50 + 50)) from by omega)]
    rw [hids]
  · rw [if_neg hc]
    rw [hids]

/-- Claim C2: fetching with `maxItems = 120` from an uploads container of
at least 120 items issues exactly 3 pagination requests, truncates the id
list to exactly 120, batches the details phase into chunks of 50, 50 and 20
ids (so exactly 3 details requests), and yields exactly 120 records. -/
theorem fetch_pipeline_maxItems_120 (container : List String)
    (detailOf : String → VideoRecord) (h : 120 ≤ container.length) :
    (list_upload_video_ids container 120).2 = 3 ∧
    (list_upload_video_ids container 120).1.length = 120 ∧
    (chunk (list_upload_video_ids container 120).1 50).map List.length = [50, 50, 20] ∧
    (fetch_video_details detailOf (list_upload_video_ids container 120).1).2 = 3 ∧
    (fetch_video_details detailOf (list_upload_video_ids container 120).1).1.length
      = 120 := by
  have hres : list_upload_video_ids container 120 = (container.take 120, 3) := by
    unfold list_upload_video_ids
    rw [listUploadLoop_120 container h]
    simp [List.take_take]
  have hlen : (container.take 120).length = 120 := by
    simp [List.length_take]
    omega
  have hne : container.take 120 ≠ [] := by
    intro hc
    rw [hc] at hlen
    simp at hlen
  have hd1 : ((container.take 120).drop 50).length = 70 := by
    rw [List.length_drop, hlen]
  have hd1ne : (container.take 120).drop 50 ≠ [] := by
    intro hc
    rw [hc] at hd1
    simp at hd1
  have hd2 : (((container.take 120).drop 50).drop 50).length = 20 := by
    rw [List.length_drop, hd1]
  have hd2ne : ((container.take 120).drop 50).drop 50 ≠ [] := by
    intro hc
    rw [hc] at hd2
    simp at hd2
  have hd3 : ((((container.take 120).drop 50).drop 50).drop 50) = [] := by
    apply List.eq_nil_of_length_eq_zero
    rw [List.length_drop, hd2]
  have hchunk : chunk (container.take 120) 50 =
      [(container.take 120).take 50, ((container.take 120).drop 50).take 50,
       (((container.take 120).drop 50).drop 50).take 50] := by
    rw [chunk_cons _ _ hne (by omega)]
    rw [chunk_cons _ _ hd1ne (by omega)]
    rw [chunk_cons _ _ hd2ne (by omega)]
    rw [hd3, chunk_nil]
  have hmap : (chunk (container.take 120) 50).map List.length = [50, 50, 20] := by
    rw [hchunk]
    simp only [List.map_cons, List.map_nil, List.length_take, hlen, hd1, hd2]
    decide
  have hfd : fetch_video_details detailOf (container.take 120) =
      ((chunk (container.take 120) 50).foldl
        (fun out group => out ++ group.map detailOf) [],
       (chunk (container.take 120) 50).length) := by
    unfold fetch_video_details
    rw [if_neg hne]
  refine ⟨?_, ?_, ?_, ?_, ?_⟩
  · rw [hres]
  · rw [hres]
    exact hlen
  · rw [hres]
    exact hmap
  · rw [hres, hfd, hchunk]
    rfl
  · rw [hres, hfd]
    rw [foldl_append_map_length detailOf _ []]
    rw [hmap]
    rfl

/-- Witness for claim C2 on a concrete container of 137 ids. -/
theorem fetch_pipeline_maxItems_120_witness :
    (list_upload_video_ids demoContainer 120).2 = 3 ∧
    (list_upload_video_ids demoContainer 120).1.length = 120 ∧
    (chunk (list_upload_video_ids demoContainer 120).1 50).map List.length
      = [50, 50, 20] ∧
    (fetch_video_details (fun i => mkVid i none 0 0 0)
        (list_upload_video_ids demoContainer 120).1).2 = 3 ∧
    (fetch_video_details (fun i => mkVid i none 0 0 0)
        (list_upload_video_ids demoContainer 120).1).1.length = 120 :=
  fetch_pipeline_maxItems_120 demoContainer (fun i => mkVid i none 0 0 0)
    (by simp [demoContainer])

end YtScraper
